/-
Verification development for the gdx-ai.js steering library.

The TypeScript sources are embedded shallowly: the mutating fluent vector
API (gl-matrix backed) becomes pure functions on a record of real numbers,
each method returning the updated value; IEEE floats are modelled by real
numbers.  Definitions follow the structure of the corresponding TypeScript
functions; spec-level restatements used for refinement proofs carry the
suffix `Spec`.
-/
import Mathlib

noncomputable section

/-- 2D vector, from src/math/Vector2.ts (backed by gl-matrix vec2).
Mutating methods are modelled value-style: each returns the new vector. -/
@[ext]
structure Vector2 where
  x : ℝ
  y : ℝ

namespace Vector2

/-- The zero vector, result of vec2.create() and of setZero. -/
def zero : Vector2 := ⟨0, 0⟩

/-- Vector2.clone: returns a copy (value semantics makes this the identity). -/
def clone (v : Vector2) : Vector2 := v

/-- vec2.sqrLen: squared length. -/
def sqrLen (v : Vector2) : ℝ := v.x * v.x + v.y * v.y

/-- vec2.len: euclidean length. -/
def len (v : Vector2) : ℝ := Real.sqrt v.sqrLen

/-- Vector2.copy(v): this becomes v. -/
def copy (_this v : Vector2) : Vector2 := v

/-- Vector2.sub(v): componentwise subtraction. -/
def sub (v w : Vector2) : Vector2 := ⟨v.x - w.x, v.y - w.y⟩

/-- Vector2.add(v): componentwise addition. -/
def add (v w : Vector2) : Vector2 := ⟨v.x + w.x, v.y + w.y⟩

/-- Vector2.dot(v): dot product. -/
def dot (v w : Vector2) : ℝ := v.x * w.x + v.y * w.y

/-- Vector2.scale(s): componentwise scaling. -/
def scale (v : Vector2) (s : ℝ) : Vector2 := ⟨v.x * s, v.y * s⟩

/-- Vector2.scaleAndAdd(w, s): this + w*s. -/
def scaleAndAdd (v w : Vector2) (s : ℝ) : Vector2 := ⟨v.x + w.x * s, v.y + w.y * s⟩

/-- vec2.squaredDistance. -/
def dst2 (v w : Vector2) : ℝ := (w.x - v.x) * (w.x - v.x) + (w.y - v.y) * (w.y - v.y)

/-- vec2.distance. -/
def dst (v w : Vector2) : ℝ := Real.sqrt (v.dst2 w)

/-- vec2.normalize: scales by 1/len when the squared length is positive,
otherwise leaves the (zero) vector unchanged. -/
def nor (v : Vector2) : Vector2 :=
  if 0 < v.sqrLen then v.scale (1 / Real.sqrt v.sqrLen) else v

/-- Vector2.limit2(limit2): truncates the squared magnitude downward only. -/
def limit2 (v : Vector2) (l2 : ℝ) : Vector2 :=
  if l2 < v.sqrLen then v.scale (Real.sqrt (l2 / v.sqrLen)) else v

/-- Vector2.limit(limit): truncates the magnitude downward only. -/
def limit (v : Vector2) (l : ℝ) : Vector2 := v.limit2 (l * l)

/-- Vector2.setZero. -/
def setZero (_this : Vector2) : Vector2 := zero

lemma sqrLen_nonneg (v : Vector2) : 0 ≤ v.sqrLen := by
  unfold sqrLen; nlinarith [sq_nonneg v.x, sq_nonneg v.y]

lemma len_nonneg (v : Vector2) : 0 ≤ v.len := Real.sqrt_nonneg _

lemma len_mul_self (v : Vector2) : v.len * v.len = v.sqrLen :=
  Real.mul_self_sqrt (sqrLen_nonneg v)

lemma len_scale (v : Vector2) (s : ℝ) : (v.scale s).len = |s| * v.len := by
  unfold len scale sqrLen
  simp only
  rw [show v.x * s * (v.x * s) + v.y * s * (v.y * s)
        = s ^ 2 * (v.x * v.x + v.y * v.y) by ring,
    Real.sqrt_mul (sq_nonneg s), Real.sqrt_sq_eq_abs]

lemma eq_zero_of_sqrLen_eq_zero {v : Vector2} (h : v.sqrLen = 0) : v = zero := by
  unfold sqrLen at h
  have hx : v.x * v.x = 0 := by nlinarith [sq_nonneg v.x, sq_nonneg v.y]
  have hy : v.y * v.y = 0 := by nlinarith [sq_nonneg v.x, sq_nonneg v.y]
  ext
  · exact mul_self_eq_zero.mp hx
  · exact mul_self_eq_zero.mp hy

lemma scale_scale (v : Vector2) (a b : ℝ) : (v.scale a).scale b = v.scale (a * b) := by
  unfold scale; ext <;> simp <;> ring

/-- Scaling by speed divided by the length equals normalizing then scaling by
the speed (the optimization noted in Arrive's source comment). -/
lemma scale_div_len (v : Vector2) (s : ℝ) : v.scale (s / v.len) = (v.nor).scale s := by
  unfold nor
  by_cases h : 0 < v.sqrLen
  · rw [if_pos h, scale_scale]
    have hlen : v.len ≠ 0 := by
      have := Real.sqrt_pos.mpr h
      unfold len; positivity
    unfold len
    congr 1
    field_simp
  · rw [if_neg h]
    have h0 : v.sqrLen = 0 := le_antisymm (not_lt.mp h) (sqrLen_nonneg v)
    have hz := eq_zero_of_sqrLen_eq_zero h0
    rw [hz]
    unfold scale zero
    simp

end Vector2

/-- From src/steer/SteeringAcceleration.ts: a linear vector plus an angular
scalar. -/
@[ext]
structure SteeringAcceleration where
  linear : Vector2
  angular : ℝ

namespace SteeringAcceleration

/-- SteeringAcceleration.setZero: zeros both components. -/
def setZero (_this : SteeringAcceleration) : SteeringAcceleration := ⟨Vector2.zero, 0⟩

/-- The all-zero steering acceleration. -/
def zero : SteeringAcceleration := ⟨Vector2.zero, 0⟩

/-- SteeringAcceleration.add. -/
def add (sa sb : SteeringAcceleration) : SteeringAcceleration :=
  ⟨sa.linear.add sb.linear, sa.angular + sb.angular⟩

/-- SteeringAcceleration.scl. -/
def scl (sa : SteeringAcceleration) (k : ℝ) : SteeringAcceleration :=
  ⟨sa.linear.scale k, sa.angular * k⟩

/-- SteeringAcceleration.mulAdd: this += steering * scalar. -/
def mulAdd (sa sb : SteeringAcceleration) (k : ℝ) : SteeringAcceleration :=
  ⟨sa.linear.scaleAndAdd sb.linear k, sa.angular + sb.angular * k⟩

/-- SteeringAcceleration.calculateSquareMagnitude: squared linear length plus
squared angular component. -/
def calculateSquareMagnitude (sa : SteeringAcceleration) : ℝ :=
  sa.linear.sqrLen + sa.angular * sa.angular

end SteeringAcceleration

/-- C9: for every vector v and non-negative L, clone-then-subtract v gives the
zero vector, scaling by 1 is the identity, limit L never increases the
magnitude, and limit L leaves v unchanged whenever its magnitude is at most
L. -/
theorem claim_C9_vector_algebra (v : Vector2) (L : ℝ) (_hL : 0 ≤ L) :
    (v.clone).sub v = Vector2.zero ∧ v.scale 1 = v ∧
    (v.limit L).len ≤ v.len ∧ (v.len ≤ L → v.limit L = v) := by
  refine ⟨?_, ?_, ?_, ?_⟩
  · unfold Vector2.clone Vector2.sub Vector2.zero
    ext <;> simp
  · unfold Vector2.scale
    ext <;> simp
  · unfold Vector2.limit Vector2.limit2
    by_cases h : L * L < v.sqrLen
    · rw [if_pos h]
      rw [Vector2.len_scale]
      have hs : 0 < v.sqrLen := lt_of_le_of_lt (by nlinarith) h
      have hq : L * L / v.sqrLen ≤ 1 := by
        rw [div_le_one hs]; exact le_of_lt h
      have h1 : Real.sqrt (L * L / v.sqrLen) ≤ 1 := by
        calc Real.sqrt (L * L / v.sqrLen) ≤ Real.sqrt 1 := Real.sqrt_le_sqrt hq
        _ = 1 := Real.sqrt_one
      rw [abs_of_nonneg (Real.sqrt_nonneg _)]
      exact mul_le_of_le_one_left (Vector2.len_nonneg v) h1
    · rw [if_neg h]
  · intro h
    unfold Vector2.limit Vector2.limit2
    rw [if_neg]
    rw [not_lt, ← Vector2.len_mul_self]
    exact mul_self_le_mul_self (Vector2.len_nonneg v) h

/-- Witness for C9 at v = (3,4), L = 5: the magnitude is 5 ≤ 5, so limit is
the identity, and scaling by one is the identity. -/
theorem claim_C9_witness :
    ((⟨3, 4⟩ : Vector2).scale 1 = ⟨3, 4⟩) ∧ ((⟨3, 4⟩ : Vector2).limit 5 = ⟨3, 4⟩) := by
  have h := claim_C9_vector_algebra ⟨3, 4⟩ 5 (by norm_num)
  refine ⟨h.2.1, h.2.2.2 ?_⟩
  show Real.sqrt ((3 : ℝ) * 3 + 4 * 4) ≤ 5
  rw [show (3 : ℝ) * 3 + 4 * 4 = 5 ^ 2 by norm_num, Real.sqrt_sq (by norm_num)]

/-- The scan loop of PrioritySteering.calculateRealSteering
(src/steer/behaviors/PrioritySteering.ts).  Each child's calculateSteering
overwrites the shared output buffer with that child's output, so children are
modelled by the list of their outputs; `buf` is the buffer value entering the
iteration, `sel` the current selectedBehaviorIndex and `i` the index of the
head child. -/
def priorityLoop (eps2 : ℝ) (buf : SteeringAcceleration) (sel i : ℤ) :
    List SteeringAcceleration → SteeringAcceleration × ℤ
  | [] => (buf, sel)
  | c :: rest =>
    if c.calculateSquareMagnitude > eps2 then (c, i)
    else priorityLoop eps2 c i (i + 1) rest

/-- PrioritySteering.calculateRealSteering: returns the first child steering
whose squared magnitude exceeds epsilon squared together with the selected
index; with no qualifying child it returns the final buffer value (the last
child's output), or the zeroed buffer when the list is empty.
selectedBehaviorIndex starts at -1. -/
def priorityCalculateRealSteering (epsilon : ℝ) (children : List SteeringAcceleration)
    (buf : SteeringAcceleration) : SteeringAcceleration × ℤ :=
  let r := priorityLoop (epsilon * epsilon) buf (-1) 0 children
  if 0 < children.length then r else (r.1.setZero, r.2)

/-- SteeringBehavior.calculateSteering for PrioritySteering: when enabled runs
the real computation, otherwise zeroes the buffer, leaving the previously
selected index untouched. -/
def priorityCalculateSteering (enabled : Bool) (epsilon : ℝ)
    (children : List SteeringAcceleration) (buf : SteeringAcceleration)
    (prevSel : ℤ) : SteeringAcceleration × ℤ :=
  if enabled then priorityCalculateRealSteering epsilon children buf
  else (buf.setZero, prevSel)

lemma priorityLoop_first_qualifying (eps2 : ℝ) :
    ∀ (children : List SteeringAcceleration) (k : ℕ) (hk : k < children.length),
      (∀ j (hj : j < children.length), j < k →
          ¬ (children.get ⟨j, hj⟩).calculateSquareMagnitude > eps2) →
      (children.get ⟨k, hk⟩).calculateSquareMagnitude > eps2 →
      ∀ (buf : SteeringAcceleration) (sel i : ℤ),
        priorityLoop eps2 buf sel i children = (children.get ⟨k, hk⟩, i + k) := by
  intro children
  induction children with
  | nil => intro k hk; cases hk
  | cons c rest ih =>
    intro k hk hbefore hqual buf sel i
    cases k with
    | zero =>
      simp only [List.get] at hqual
      unfold priorityLoop
      rw [if_pos hqual]
      simp [List.get]
    | succ k =>
      have hc : ¬ c.calculateSquareMagnitude > eps2 := by
        have := hbefore 0 (by simp) (Nat.succ_pos k)
        simpa [List.get] using this
      unfold priorityLoop
      rw [if_neg hc]
      have hk2 : k < rest.length := Nat.lt_of_succ_lt_succ hk
      have hb2 : ∀ j (hj : j < rest.length), j < k →
          ¬ (rest.get ⟨j, hj⟩).calculateSquareMagnitude > eps2 := by
        intro j hj hjk
        have := hbefore (j + 1) (Nat.succ_lt_succ hj) (Nat.succ_lt_succ hjk)
        simpa [List.get] using this
      have hq2 : (rest.get ⟨k, hk2⟩).calculateSquareMagnitude > eps2 := by
        simpa [List.get] using hqual
      rw [ih k hk2 hb2 hq2 c i (i + 1)]
      have hget : (c :: rest).get ⟨k + 1, hk⟩ = rest.get ⟨k, hk2⟩ := rfl
      rw [hget]
      simp only [Prod.mk.injEq]
      exact ⟨trivial, by push_cast; ring⟩

lemma priorityLoop_no_qualifying (eps2 : ℝ) :
    ∀ (children : List SteeringAcceleration), children ≠ [] →
      (∀ c ∈ children, ¬ c.calculateSquareMagnitude > eps2) →
      ∀ (buf : SteeringAcceleration) (sel i : ℤ),
      priorityLoop eps2 buf sel i children
        = (children.getLast?.getD buf, i + children.length - 1) := by
  intro children
  induction children with
  | nil => intro hne; exact absurd rfl hne
  | cons c rest ih =>
    intro _hne hnone buf sel i
    unfold priorityLoop
    rw [if_neg (hnone c (by simp))]
    cases rest with
    | nil =>
      unfold priorityLoop
      simp
    | cons d ds =>
      have hrne : (d :: ds) ≠ [] := by simp
      have hrec := ih hrne (fun x hx => hnone x (by simp [hx])) c i (i + 1)
      rw [hrec]
      simp only [Prod.mk.injEq]
      constructor
      · rw [List.getLast?_cons_cons, List.getLast?_eq_getLast _ hrne]
        simp
      · simp only [List.length_cons]; push_cast; ring

/-- Child outputs with combined magnitudes 0, 0, 5, 3 (carried entirely by the
angular component), used by the PrioritySteering scenario. -/
def demoPriorityChildren : List SteeringAcceleration :=
  [⟨Vector2.zero, 0⟩, ⟨Vector2.zero, 0⟩, ⟨Vector2.zero, 5⟩, ⟨Vector2.zero, 3⟩]

/-- C2: the enabled PrioritySteering evaluates children in order and returns
the output and index of the first child whose squared combined magnitude
exceeds epsilon squared; when no child qualifies it returns the last child's
sub-threshold output unchanged, and it returns exactly zero (the zeroed
buffer, regardless of children) only in the empty-list branch; for children of
magnitudes [0,0,5,3] and epsilon 1 the selected index is 2 and the output is
child 2's output. -/
theorem claim_C2_priority_steering :
    (∀ (eps : ℝ) (children : List SteeringAcceleration)
        (buf : SteeringAcceleration) (prevSel : ℤ) (k : ℕ) (hk : k < children.length),
      (∀ j (hj : j < children.length), j < k →
          ¬ (children.get ⟨j, hj⟩).calculateSquareMagnitude > eps * eps) →
      (children.get ⟨k, hk⟩).calculateSquareMagnitude > eps * eps →
      priorityCalculateSteering true eps children buf prevSel
        = (children.get ⟨k, hk⟩, (k : ℤ))) ∧
    (∀ (eps : ℝ) (children : List SteeringAcceleration)
        (buf : SteeringAcceleration) (prevSel : ℤ) (hne : children ≠ []),
      (∀ c ∈ children, ¬ c.calculateSquareMagnitude > eps * eps) →
      priorityCalculateSteering true eps children buf prevSel
        = (children.getLast hne, (children.length : ℤ) - 1)) ∧
    (∀ (eps : ℝ) (buf : SteeringAcceleration) (prevSel : ℤ),
      priorityCalculateSteering true eps [] buf prevSel
        = (SteeringAcceleration.zero, -1)) ∧
    priorityCalculateSteering true 1 demoPriorityChildren SteeringAcceleration.zero 0
      = (⟨Vector2.zero, 5⟩, 2) := by
  have hfirst : ∀ (eps : ℝ) (children : List SteeringAcceleration)
      (buf : SteeringAcceleration) (prevSel : ℤ) (k : ℕ) (hk : k < children.length),
      (∀ j (hj : j < children.length), j < k →
          ¬ (children.get ⟨j, hj⟩).calculateSquareMagnitude > eps * eps) →
      (children.get ⟨k, hk⟩).calculateSquareMagnitude > eps * eps →
      priorityCalculateSteering true eps children buf prevSel
        = (children.get ⟨k, hk⟩, (k : ℤ)) := by
    intro eps children buf prevSel k hk hbefore hqual
    unfold priorityCalculateSteering priorityCalculateRealSteering
    rw [if_pos rfl]
    simp only
    rw [priorityLoop_first_qualifying (eps * eps) children k hk hbefore hqual buf (-1) 0]
    rw [if_pos (Nat.pos_of_ne_zero (by intro h0; rw [List.length_eq_zero] at h0; subst h0; cases hk))]
    simp
  refine ⟨hfirst, ?_, ?_, ?_⟩
  · intro eps children buf prevSel hne hnone
    unfold priorityCalculateSteering priorityCalculateRealSteering
    rw [if_pos rfl]
    simp only
    rw [priorityLoop_no_qualifying (eps * eps) children hne hnone buf (-1) 0]
    rw [if_pos (List.length_pos.mpr hne)]
    rw [List.getLast?_eq_getLast _ hne]
    simp
  · intro eps buf prevSel
    unfold priorityCalculateSteering priorityCalculateRealSteering priorityLoop
    simp [SteeringAcceleration.setZero, SteeringAcceleration.zero]
  · have h2 : (2 : ℕ) < demoPriorityChildren.length := by simp [demoPriorityChildren]
    have := hfirst 1 demoPriorityChildren SteeringAcceleration.zero 0 2 h2 ?_ ?_
    · simpa [demoPriorityChildren, List.get] using this
    · intro j hj hjk
      interval_cases j <;>
        simp [demoPriorityChildren, List.get, SteeringAcceleration.calculateSquareMagnitude,
          Vector2.sqrLen, Vector2.zero]
    · simp [demoPriorityChildren, List.get, SteeringAcceleration.calculateSquareMagnitude,
        Vector2.sqrLen, Vector2.zero]
      norm_num

/-- Witness for C2: the first-qualifying-child conjunct instantiated on the
concrete scenario children, with a different incoming buffer and previous
index. -/
theorem claim_C2_witness :
    priorityCalculateSteering true 1 demoPriorityChildren ⟨⟨1, 1⟩, 1⟩ 7
      = (⟨Vector2.zero, 5⟩, 2) := by
  have h2 : (2 : ℕ) < demoPriorityChildren.length := by simp [demoPriorityChildren]
  have := claim_C2_priority_steering.1 1 demoPriorityChildren ⟨⟨1, 1⟩, 1⟩ 7 2 h2 ?_ ?_
  · simpa [demoPriorityChildren, List.get] using this
  · intro j hj hjk
    interval_cases j <;>
      simp [demoPriorityChildren, List.get, SteeringAcceleration.calculateSquareMagnitude,
        Vector2.sqrLen, Vector2.zero]
  · simp [demoPriorityChildren, List.get, SteeringAcceleration.calculateSquareMagnitude,
      Vector2.sqrLen, Vector2.zero]
    norm_num

/-- C10: the squared magnitude PrioritySteering compares against epsilon
squared is the squared linear length plus the squared angular component, so a
reached child with zero linear output and angular magnitude above epsilon is
selected. -/
theorem claim_C10_square_magnitude_includes_angular :
    (∀ sa : SteeringAcceleration,
        sa.calculateSquareMagnitude
          = sa.linear.len * sa.linear.len + sa.angular * sa.angular) ∧
    (∀ (eps : ℝ) (children : List SteeringAcceleration)
        (buf : SteeringAcceleration) (prevSel : ℤ) (k : ℕ) (hk : k < children.length),
      0 ≤ eps →
      (∀ j (hj : j < children.length), j < k →
          ¬ (children.get ⟨j, hj⟩).calculateSquareMagnitude > eps * eps) →
      (children.get ⟨k, hk⟩).linear = Vector2.zero →
      eps < |(children.get ⟨k, hk⟩).angular| →
      priorityCalculateSteering true eps children buf prevSel
        = (children.get ⟨k, hk⟩, (k : ℤ))) := by
  constructor
  · intro sa
    unfold SteeringAcceleration.calculateSquareMagnitude
    rw [Vector2.len_mul_self]
  · intro eps children buf prevSel k hk heps hbefore hlin hang
    have hqual : (children.get ⟨k, hk⟩).calculateSquareMagnitude > eps * eps := by
      unfold SteeringAcceleration.calculateSquareMagnitude
      rw [hlin]
      have h1 : eps * eps < |(children.get ⟨k, hk⟩).angular| * |(children.get ⟨k, hk⟩).angular| :=
        mul_self_lt_mul_self heps hang
      rw [abs_mul_abs_self] at h1
      simpa [Vector2.zero, Vector2.sqrLen] using h1
    unfold priorityCalculateSteering priorityCalculateRealSteering
    rw [if_pos rfl]
    simp only
    rw [priorityLoop_first_qualifying (eps * eps) children k hk hbefore hqual buf (-1) 0]
    rw [if_pos (Nat.pos_of_ne_zero (by intro h0; rw [List.length_eq_zero] at h0; subst h0; cases hk))]
    simp

/-- Witness for C10: a single child with zero linear output and angular 2 is
selected with epsilon 1. -/
theorem claim_C10_witness :
    priorityCalculateSteering true 1 [⟨Vector2.zero, 2⟩] SteeringAcceleration.zero 0
      = (⟨Vector2.zero, 2⟩, 0) := by
  have h0 : (0 : ℕ) < ([⟨Vector2.zero, 2⟩] : List SteeringAcceleration).length := by simp
  have := claim_C10_square_magnitude_includes_angular.2 1
    [⟨Vector2.zero, 2⟩] SteeringAcceleration.zero 0 0 h0
    (by norm_num) (by intro j hj hjk; omega) (by simp [List.get]) (by simp [List.get])
  simpa [List.get] using this

/-- The accumulation loop of BlendedSteering.calculateRealSteering
(src/steer/behaviors/BlendedSteering.ts): the output buffer is zeroed, then
each (behavior, weight) entry has its child steering computed into the private
buffer and mulAdd-ed into the output.  Children are modelled by their steering
outputs. -/
def blendedAccumulate (list : List (SteeringAcceleration × ℝ)) : SteeringAcceleration :=
  list.foldl (fun acc bw => acc.mulAdd bw.1 bw.2) SteeringAcceleration.zero

/-- BlendedSteering.calculateRealSteering: accumulates the weighted child
outputs, then crops the result: the linear part through Vector2.limit, the
angular part only when it exceeds the cap from above. -/
def blendedCalculateRealSteering (list : List (SteeringAcceleration × ℝ))
    (maxLinearAcceleration maxAngularAcceleration : ℝ) : SteeringAcceleration :=
  let blended := blendedAccumulate list
  ⟨blended.linear.limit maxLinearAcceleration,
    if blended.angular > maxAngularAcceleration then maxAngularAcceleration
    else blended.angular⟩

/-- SteeringBehavior.calculateSteering for BlendedSteering: gates on
`enabled`. -/
def blendedCalculateSteering (enabled : Bool) (list : List (SteeringAcceleration × ℝ))
    (maxLinearAcceleration maxAngularAcceleration : ℝ)
    (buf : SteeringAcceleration) : SteeringAcceleration :=
  if enabled then blendedCalculateRealSteering list maxLinearAcceleration maxAngularAcceleration
  else buf.setZero

/-- Spec-level weighted sum: the sum, over the ordered (behavior, weight)
list, of weight times the child steering output. -/
def weightedSumSpec (list : List (SteeringAcceleration × ℝ)) : SteeringAcceleration :=
  (list.map (fun bw => bw.1.scl bw.2)).foldr SteeringAcceleration.add SteeringAcceleration.zero

lemma SteeringAcceleration.add_zero (sa : SteeringAcceleration) :
    sa.add SteeringAcceleration.zero = sa := by
  unfold SteeringAcceleration.add SteeringAcceleration.zero Vector2.add Vector2.zero
  ext <;> simp

lemma SteeringAcceleration.mulAdd_eq_add_scl (sa sb : SteeringAcceleration) (k : ℝ) :
    sa.mulAdd sb k = sa.add (sb.scl k) := by
  unfold SteeringAcceleration.mulAdd SteeringAcceleration.add SteeringAcceleration.scl
    Vector2.scaleAndAdd Vector2.add Vector2.scale
  ext <;> simp

lemma SteeringAcceleration.add_assoc (sa sb sc : SteeringAcceleration) :
    (sa.add sb).add sc = sa.add (sb.add sc) := by
  unfold SteeringAcceleration.add Vector2.add
  ext <;> simp <;> ring

lemma blendedAccumulate_eq_weightedSum (list : List (SteeringAcceleration × ℝ)) :
    blendedAccumulate list = weightedSumSpec list := by
  have main : ∀ (l : List (SteeringAcceleration × ℝ)) (acc : SteeringAcceleration),
      l.foldl (fun a bw => a.mulAdd bw.1 bw.2) acc = acc.add (weightedSumSpec l) := by
    intro l
    induction l with
    | nil => intro acc; simp [weightedSumSpec, SteeringAcceleration.add_zero]
    | cons c rest ih =>
      intro acc
      simp only [List.foldl_cons]
      rw [ih (acc.mulAdd c.1 c.2), SteeringAcceleration.mulAdd_eq_add_scl,
        SteeringAcceleration.add_assoc]
      unfold weightedSumSpec
      simp only [List.map_cons, List.foldr_cons]
  have := main list SteeringAcceleration.zero
  unfold blendedAccumulate
  rw [this]
  unfold SteeringAcceleration.add SteeringAcceleration.zero Vector2.add Vector2.zero
  ext <;> simp

/-- C1 counterexample: one enabled child producing angular −5 with weight 1
and caps maxLinearAcceleration = 10, maxAngularAcceleration = 1.  The output
angular component stays −5: its magnitude 5 is not clamped to the angular cap
1, refuting that the combined angular magnitude is clamped. -/
theorem claim_C1_counterexample :
    (blendedCalculateSteering true [(⟨Vector2.zero, -5⟩, 1)] 10 1
        SteeringAcceleration.zero).angular = -5 ∧
    ¬ |(blendedCalculateSteering true [(⟨Vector2.zero, -5⟩, 1)] 10 1
        SteeringAcceleration.zero).angular| ≤ 1 := by
  have hacc : blendedAccumulate [(⟨Vector2.zero, -5⟩, 1)] = ⟨Vector2.zero, -5⟩ := by
    unfold blendedAccumulate SteeringAcceleration.zero SteeringAcceleration.mulAdd
      Vector2.scaleAndAdd Vector2.zero
    simp
  have h : blendedCalculateSteering true [(⟨Vector2.zero, -5⟩, 1)] 10 1
      SteeringAcceleration.zero = ⟨Vector2.zero, -5⟩ := by
    unfold blendedCalculateSteering blendedCalculateRealSteering
    rw [if_pos rfl]
    simp only [hacc]
    rw [if_neg (by norm_num)]
    have hlim : (Vector2.zero).limit 10 = Vector2.zero := by
      unfold Vector2.limit Vector2.limit2 Vector2.zero Vector2.sqrLen
      rw [if_neg (by norm_num)]
    simp [hlim]
  rw [h]
  norm_num

/-- C1 (amended): the enabled BlendedSteering outputs the weighted sum V over
its ordered (behavior, weight) list with the linear magnitude clamped through
limit to maxLinearAcceleration and the angular value clamped from above only
to maxAngularAcceleration (negative angular values pass through unclamped);
whenever |V.linear| exceeds the non-negative maxLinearAcceleration, the output
linear component is the positive rescaling of V.linear with magnitude exactly
maxLinearAcceleration. -/
theorem claim_C1_blended_weighted_sum (list : List (SteeringAcceleration × ℝ))
    (maxLin maxAng : ℝ) (buf : SteeringAcceleration) (hLin : 0 ≤ maxLin) :
    blendedCalculateSteering true list maxLin maxAng buf
      = ⟨(weightedSumSpec list).linear.limit maxLin,
          if (weightedSumSpec list).angular > maxAng then maxAng
          else (weightedSumSpec list).angular⟩ ∧
    (maxLin < (weightedSumSpec list).linear.len →
      (blendedCalculateSteering true list maxLin maxAng buf).linear
          = (weightedSumSpec list).linear.scale
              (maxLin / (weightedSumSpec list).linear.len) ∧
      (blendedCalculateSteering true list maxLin maxAng buf).linear.len = maxLin) := by
  have hmain : blendedCalculateSteering true list maxLin maxAng buf
      = ⟨(weightedSumSpec list).linear.limit maxLin,
          if (weightedSumSpec list).angular > maxAng then maxAng
          else (weightedSumSpec list).angular⟩ := by
    unfold blendedCalculateSteering blendedCalculateRealSteering
    rw [if_pos rfl]
    simp only [blendedAccumulate_eq_weightedSum]
  refine ⟨hmain, ?_⟩
  intro hgt
  set V := (weightedSumSpec list).linear with hV
  have hlen0 : 0 < V.len := lt_of_le_of_lt hLin hgt
  have hlen : V.len ≠ 0 := ne_of_gt hlen0
  have hsqr : maxLin * maxLin < V.sqrLen := by
    rw [← Vector2.len_mul_self]
    exact mul_self_lt_mul_self hLin hgt
  have hfac : Real.sqrt (maxLin * maxLin / V.sqrLen) = maxLin / V.len := by
    rw [Real.sqrt_div (mul_self_nonneg maxLin), Real.sqrt_mul_self hLin]
    rfl
  have hlimit : V.limit maxLin = V.scale (maxLin / V.len) := by
    unfold Vector2.limit Vector2.limit2
    rw [if_pos hsqr, hfac]
  refine ⟨by rw [hmain]; exact hlimit, ?_⟩
  rw [hmain]
  simp only
  rw [hlimit, Vector2.len_scale, abs_of_nonneg (div_nonneg hLin (le_of_lt hlen0))]
  field_simp

/-- Witness for C1 (amended): one child with linear output (3,4) and weight 2
gives the weighted sum (6,8) of magnitude 10 > maxLinearAcceleration = 5, and
the output linear component is (3,4), of magnitude exactly 5 and pointing in
the direction of (6,8). -/
theorem claim_C1_witness :
    (blendedCalculateSteering true [(⟨⟨3, 4⟩, 0⟩, 2)] 5 100
        SteeringAcceleration.zero).linear = ⟨3, 4⟩ ∧
    (blendedCalculateSteering true [(⟨⟨3, 4⟩, 0⟩, 2)] 5 100
        SteeringAcceleration.zero).linear.len = 5 := by
  have hW : weightedSumSpec [(⟨⟨3, 4⟩, 0⟩, 2)] = ⟨⟨6, 8⟩, 0⟩ := by
    unfold weightedSumSpec SteeringAcceleration.scl SteeringAcceleration.add
      SteeringAcceleration.zero Vector2.scale Vector2.add Vector2.zero
    simp
    norm_num
  have hlen : (weightedSumSpec [(⟨⟨3, 4⟩, 0⟩, 2)]).linear.len = 10 := by
    rw [hW]
    show Real.sqrt ((6 : ℝ) * 6 + 8 * 8) = 10
    rw [show (6 : ℝ) * 6 + 8 * 8 = 10 ^ 2 by norm_num, Real.sqrt_sq (by norm_num)]
  have h := (claim_C1_blended_weighted_sum [(⟨⟨3, 4⟩, 0⟩, 2)] 5 100
    SteeringAcceleration.zero (by norm_num)).2 (by rw [hlen]; norm_num)
  refine ⟨?_, by rw [h.2]⟩
  rw [h.1, hW]
  have hlen6 : (⟨6, 8⟩ : Vector2).len = 10 := by
    show Real.sqrt ((6 : ℝ) * 6 + 8 * 8) = 10
    rw [show (6 : ℝ) * 6 + 8 * 8 = 10 ^ 2 by norm_num, Real.sqrt_sq (by norm_num)]
  simp only [hlen6]
  unfold Vector2.scale
  ext <;> simp <;> norm_num

/-- Arrive.arrive (src/steer/behaviors/Arrive.ts).  The owner is represented
by its position and linear velocity, the actual limiter by its maxLinearSpeed
and maxLinearAcceleration caps.  The output buffer is fully overwritten, so it
is not a parameter. -/
def arrive (ownerPosition linearVelocity targetPosition : Vector2)
    (arrivalTolerance decelerationRadius timeToTarget
      maxLinearSpeed maxLinearAcceleration : ℝ) : SteeringAcceleration :=
  let toTarget := targetPosition.sub ownerPosition
  let distance := toTarget.len
  if distance ≤ arrivalTolerance then SteeringAcceleration.zero
  else
    let targetSpeed := maxLinearSpeed
    let targetSpeed := if distance ≤ decelerationRadius
      then targetSpeed * (distance / decelerationRadius) else targetSpeed
    let targetVelocity := toTarget.scale (targetSpeed / distance)
    ⟨((targetVelocity.sub linearVelocity).scale (1 / timeToTarget)).limit
        maxLinearAcceleration, 0⟩

/-- C3 spec reading of Arrive: desired speed is maxLinearSpeed beyond the
deceleration radius and maxLinearSpeed scaled by distance/decelerationRadius
inside it; the desired velocity is the normalized direction to the target
scaled by the desired speed; the linear output is
(desiredVelocity − currentVelocity)/timeToTarget with magnitude capped at
maxLinearAcceleration; angular output is zero; exact zero steering within the
arrival tolerance. -/
def arriveSpec (ownerPosition linearVelocity targetPosition : Vector2)
    (arrivalTolerance decelerationRadius timeToTarget
      maxLinearSpeed maxLinearAcceleration : ℝ) : SteeringAcceleration :=
  let toTarget := targetPosition.sub ownerPosition
  let distance := toTarget.len
  if distance ≤ arrivalTolerance then SteeringAcceleration.zero
  else
    let desiredSpeed := if decelerationRadius < distance then maxLinearSpeed
      else maxLinearSpeed * (distance / decelerationRadius)
    let desiredVelocity := (toTarget.nor).scale desiredSpeed
    ⟨((desiredVelocity.sub linearVelocity).scale (1 / timeToTarget)).limit
        maxLinearAcceleration, 0⟩

/-- C3: Arrive's steering computation agrees with the spec reading for every
owner position, velocity, target and limiter: exact zero at distance up to the
arrival tolerance, and otherwise the capped (desiredVelocity − velocity) /
timeToTarget acceleration with the documented desired-speed profile and zero
angular output. -/
theorem claim_C3_arrive_profile (ownerPosition linearVelocity targetPosition : Vector2)
    (arrivalTolerance decelerationRadius timeToTarget
      maxLinearSpeed maxLinearAcceleration : ℝ) :
    arrive ownerPosition linearVelocity targetPosition arrivalTolerance
        decelerationRadius timeToTarget maxLinearSpeed maxLinearAcceleration
      = arriveSpec ownerPosition linearVelocity targetPosition arrivalTolerance
        decelerationRadius timeToTarget maxLinearSpeed maxLinearAcceleration ∧
    ((targetPosition.sub ownerPosition).len ≤ arrivalTolerance →
      arrive ownerPosition linearVelocity targetPosition arrivalTolerance
        decelerationRadius timeToTarget maxLinearSpeed maxLinearAcceleration
      = SteeringAcceleration.zero) := by
  constructor
  · unfold arrive arriveSpec
    by_cases h1 : (targetPosition.sub ownerPosition).len ≤ arrivalTolerance
    · rw [if_pos h1, if_pos h1]
    · rw [if_neg h1, if_neg h1]
      dsimp only
      have harg : (targetPosition.sub ownerPosition).scale
          ((if (targetPosition.sub ownerPosition).len ≤ decelerationRadius
            then maxLinearSpeed * ((targetPosition.sub ownerPosition).len / decelerationRadius)
            else maxLinearSpeed) / (targetPosition.sub ownerPosition).len)
          = ((targetPosition.sub ownerPosition).nor).scale
              (if decelerationRadius < (targetPosition.sub ownerPosition).len
               then maxLinearSpeed
               else maxLinearSpeed * ((targetPosition.sub ownerPosition).len / decelerationRadius)) := by
        rw [Vector2.scale_div_len]
        by_cases h2 : (targetPosition.sub ownerPosition).len ≤ decelerationRadius
        · rw [if_pos h2, if_neg (not_lt.mpr h2)]
        · rw [if_neg h2, if_pos (not_le.mp h2)]
      rw [harg]
  · intro h
    unfold arrive
    rw [if_pos h]

/-- PI2 (src/math/PI2.ts): two pi. -/
def PI2 : ℝ := 2 * Real.pi

/-- The remainder x % y of JavaScript for the non-negative dividends and
positive divisor used by wrapAngleAroundZero, expressed with the floor of the
quotient (for x ≥ 0, y > 0 the JavaScript truncated remainder and the floored
remainder coincide). -/
def jsMod (x y : ℝ) : ℝ := x - y * (⌊x / y⌋ : ℤ)

/-- wrapAngleAroundZero (src/math/wrapAngleAroundZero.ts): wraps the given
angle to the range [-PI, PI]. -/
def wrapAngleAroundZero (a : ℝ) : ℝ :=
  if 0 ≤ a then
    let rotation := jsMod a PI2
    if Real.pi < rotation then rotation - PI2 else rotation
  else
    let rotation := jsMod (-a) PI2
    if Real.pi < rotation then -(rotation - PI2) else -rotation

lemma PI2_pos : 0 < PI2 := by unfold PI2; positivity

lemma jsMod_PI2_bounds (x : ℝ) : 0 ≤ jsMod x PI2 ∧ jsMod x PI2 < PI2 := by
  have hp : 0 < PI2 := PI2_pos
  have hfr : jsMod x PI2 = PI2 * Int.fract (x / PI2) := by
    unfold jsMod Int.fract
    rw [mul_sub, mul_div_cancel₀ x (ne_of_gt hp)]
  constructor
  · rw [hfr]
    exact mul_nonneg (le_of_lt hp) (Int.fract_nonneg _)
  · rw [hfr]
    calc PI2 * Int.fract (x / PI2) < PI2 * 1 :=
          (mul_lt_mul_left hp).mpr (Int.fract_lt_one _)
    _ = PI2 := mul_one _

/-- ReachOrientation.reachOrientation (unnamed part_016).  The owner is
represented by its orientation and angular velocity, the actual limiter by
its maxAngularSpeed and maxAngularAcceleration caps. -/
def reachOrientation (ownerOrientation angularVelocity targetOrientation
    alignTolerance decelerationRadius timeToTarget
    maxAngularSpeed maxAngularAcceleration : ℝ) : SteeringAcceleration :=
  let rotation := wrapAngleAroundZero (targetOrientation - ownerOrientation)
  let rotationSize := if rotation < 0 then -rotation else rotation
  if rotationSize ≤ alignTolerance then SteeringAcceleration.zero
  else
    let targetRotation := maxAngularSpeed
    let targetRotation := if rotationSize ≤ decelerationRadius
      then targetRotation * (rotationSize / decelerationRadius) else targetRotation
    let targetRotation := targetRotation * (rotation / rotationSize)
    let angular := (targetRotation - angularVelocity) / timeToTarget
    let angularAcceleration := if angular < 0 then -angular else angular
    let angular := if maxAngularAcceleration < angularAcceleration
      then angular * (maxAngularAcceleration / angularAcceleration) else angular
    ⟨Vector2.zero, angular⟩

/-- C4 spec reading of ReachOrientation: rotation wrapped to [-pi, pi], exact
zero when |rotation| is within the align tolerance, desired rotation speed
scaled by |rotation|/decelerationRadius inside the deceleration radius, sign
from the rotation, angular = (desired − current)/timeToTarget with magnitude
capped at maxAngularAcceleration, zero linear output. -/
def reachOrientationSpec (ownerOrientation angularVelocity targetOrientation
    alignTolerance decelerationRadius timeToTarget
    maxAngularSpeed maxAngularAcceleration : ℝ) : SteeringAcceleration :=
  let rotation := wrapAngleAroundZero (targetOrientation - ownerOrientation)
  if |rotation| ≤ alignTolerance then SteeringAcceleration.zero
  else
    let desiredSpeed := if |rotation| ≤ decelerationRadius
      then maxAngularSpeed * (|rotation| / decelerationRadius) else maxAngularSpeed
    let desiredRotation := desiredSpeed * (rotation / |rotation|)
    let raw := (desiredRotation - angularVelocity) / timeToTarget
    ⟨Vector2.zero,
      if maxAngularAcceleration < |raw| then raw * (maxAngularAcceleration / |raw|)
      else raw⟩

lemma ite_neg_eq_abs (x : ℝ) : (if x < 0 then -x else x) = |x| := by
  by_cases h : x < 0
  · rw [if_pos h, abs_of_neg h]
  · rw [if_neg h, abs_of_nonneg (not_lt.mp h)]

/-- C4: wrapAngleAroundZero lands in [-pi, pi]; for ownerAngle 0 and
targetAngle pi + 1/10 the wrapped rotation is 1/10 - pi (the shortest path,
not pi + 1/10); ReachOrientation agrees with the spec reading everywhere, and
returns exact zero steering when |rotation| is within the align tolerance. -/
theorem claim_C4_reach_orientation :
    (∀ a : ℝ, -Real.pi ≤ wrapAngleAroundZero a ∧ wrapAngleAroundZero a ≤ Real.pi) ∧
    wrapAngleAroundZero (Real.pi + 1 / 10 - 0) = 1 / 10 - Real.pi ∧
    (∀ ownerOrientation angularVelocity targetOrientation alignTolerance
        decelerationRadius timeToTarget maxAngularSpeed maxAngularAcceleration : ℝ,
      reachOrientation ownerOrientation angularVelocity targetOrientation
          alignTolerance decelerationRadius timeToTarget
          maxAngularSpeed maxAngularAcceleration
        = reachOrientationSpec ownerOrientation angularVelocity targetOrientation
          alignTolerance decelerationRadius timeToTarget
          maxAngularSpeed maxAngularAcceleration) ∧
    (∀ ownerOrientation angularVelocity targetOrientation alignTolerance
        decelerationRadius timeToTarget maxAngularSpeed maxAngularAcceleration : ℝ,
      |wrapAngleAroundZero (targetOrientation - ownerOrientation)| ≤ alignTolerance →
      reachOrientation ownerOrientation angularVelocity targetOrientation
          alignTolerance decelerationRadius timeToTarget
          maxAngularSpeed maxAngularAcceleration
        = SteeringAcceleration.zero) := by
  have hpi : (0 : ℝ) < Real.pi := Real.pi_pos
  refine ⟨?_, ?_, ?_, ?_⟩
  · intro a
    unfold wrapAngleAroundZero
    by_cases ha : 0 ≤ a
    · rw [if_pos ha]
      obtain ⟨hm0, hm2⟩ := jsMod_PI2_bounds a
      dsimp only
      by_cases hr : Real.pi < jsMod a PI2
      · rw [if_pos hr]
        unfold PI2 at hm0 hm2 hr ⊢
        constructor <;> nlinarith
      · rw [if_neg hr]
        unfold PI2 at hm0 hm2 hr ⊢
        constructor <;> nlinarith
    · rw [if_neg ha]
      obtain ⟨hm0, hm2⟩ := jsMod_PI2_bounds (-a)
      dsimp only
      by_cases hr : Real.pi < jsMod (-a) PI2
      · rw [if_pos hr]
        unfold PI2 at hm0 hm2 hr ⊢
        constructor <;> nlinarith
      · rw [if_neg hr]
        unfold PI2 at hm0 hm2 hr ⊢
        constructor <;> nlinarith
  · have ha : (0 : ℝ) ≤ Real.pi + 1 / 10 - 0 := by nlinarith
    have hlt : Real.pi + 1 / 10 - 0 < PI2 := by
      unfold PI2
      nlinarith [Real.pi_gt_three]
    have hfloor : ⌊(Real.pi + 1 / 10 - 0) / PI2⌋ = 0 := by
      rw [Int.floor_eq_zero_iff, Set.mem_Ico]
      constructor
      · exact div_nonneg ha (le_of_lt PI2_pos)
      · rw [div_lt_one PI2_pos]
        exact hlt
    have hmod : jsMod (Real.pi + 1 / 10 - 0) PI2 = Real.pi + 1 / 10 - 0 := by
      unfold jsMod
      rw [hfloor]
      simp
    unfold wrapAngleAroundZero
    rw [if_pos ha]
    dsimp only
    rw [hmod, if_pos (by nlinarith)]
    unfold PI2
    ring
  · intro ownerOrientation angularVelocity targetOrientation alignTolerance
      decelerationRadius timeToTarget maxAngularSpeed maxAngularAcceleration
    unfold reachOrientation reachOrientationSpec
    dsimp only
    rw [ite_neg_eq_abs]
    by_cases h1 : |wrapAngleAroundZero (targetOrientation - ownerOrientation)| ≤ alignTolerance
    · rw [if_pos h1, if_pos h1]
    · rw [if_neg h1, if_neg h1]
      rw [ite_neg_eq_abs]
  · intro ownerOrientation angularVelocity targetOrientation alignTolerance
      decelerationRadius timeToTarget maxAngularSpeed maxAngularAcceleration h
    unfold reachOrientation
    dsimp only
    rw [ite_neg_eq_abs, if_pos h]

/-- Witness for C4: with owner orientation and target orientation both zero
and zero align tolerance the wrapped rotation is zero, so the behavior returns
exactly zero steering. -/
theorem claim_C4_witness :
    reachOrientation 0 0 0 0 1 1 1 1 = SteeringAcceleration.zero := by
  have hfloor : ⌊(0 : ℝ) / PI2⌋ = 0 := by
    rw [zero_div]
    exact Int.floor_zero
  have hwrap : wrapAngleAroundZero ((0 : ℝ) - 0) = 0 := by
    unfold wrapAngleAroundZero
    rw [if_pos (by norm_num)]
    dsimp only
    have hmod : jsMod ((0 : ℝ) - 0) PI2 = 0 := by
      unfold jsMod
      simp only [show (0 : ℝ) - 0 = 0 by norm_num]
      rw [hfloor]
      simp
    rw [hmod, if_neg (not_lt.mpr (le_of_lt Real.pi_pos))]
  exact claim_C4_reach_orientation.2.2.2 0 0 0 0 1 1 1 1 (by rw [hwrap]; simp)

/-- JumpDescriptor: takeoff and landing positions with the cached difference
delta = landingPosition − takeoffPosition. -/
structure JumpDescriptor where
  takeoffPosition : Vector2
  landingPosition : Vector2
  delta : Vector2

/-- The 2D GravityComponentHandler used with Jump: gravity operates along the
y axis, so getComponent reads the y component. -/
def gravityGetComponent (v : Vector2) : ℝ := v.y

/-- The 2D GravityComponentHandler setComponent: overwrites the y
component. -/
def gravitySetComponent (v : Vector2) (value : ℝ) : Vector2 := ⟨v.x, value⟩

/-- Jump.checkAirborneTimeAndCalculateVelocity: computes the planar velocity
delta/time with the gravity component zeroed and, when its squared speed is
strictly below maxLinearSpeed squared, merges it into outVelocity (keeping
outVelocity's vertical component) and reports success; otherwise leaves
outVelocity unchanged. -/
def checkAirborneTimeAndCalculateVelocity (outVelocity : Vector2) (time : ℝ)
    (delta : Vector2) (maxLinearSpeed : ℝ) : Bool × Vector2 :=
  let planarVelocity := gravitySetComponent (delta.scale (1 / time)) 0
  if planarVelocity.sqrLen < maxLinearSpeed * maxLinearSpeed then
    let verticalValue := gravityGetComponent outVelocity
    (true, gravitySetComponent (outVelocity.copy planarVelocity) verticalValue)
  else (false, outVelocity)

/-- The square-root term of Jump's motion equation. -/
def jumpSqrtTerm (g v0 dy : ℝ) : ℝ := Real.sqrt (2 * g * dy + v0 * v0)

/-- The first root tried by Jump: (−v0 + sqrtTerm)/g. -/
def jumpTime1 (g v0 dy : ℝ) : ℝ := (-v0 + jumpSqrtTerm g v0 dy) / g

/-- The second root tried by Jump: (−v0 − sqrtTerm)/g. -/
def jumpTime2 (g v0 dy : ℝ) : ℝ := (-v0 - jumpSqrtTerm g v0 dy) / g

/-- Jump.calculateAirborneTimeAndVelocity: tries the first root, then the
second, accepting a root when its planar speed check succeeds; on double
failure returns −1 and the unchanged outVelocity. -/
def calculateAirborneTimeAndVelocity (outVelocity : Vector2) (gravity : Vector2)
    (maxVerticalVelocity : ℝ) (jumpDescriptor : JumpDescriptor)
    (maxLinearSpeed : ℝ) : ℝ × Vector2 :=
  let g := gravityGetComponent gravity
  let time := jumpTime1 g maxVerticalVelocity (gravityGetComponent jumpDescriptor.delta)
  let r1 := checkAirborneTimeAndCalculateVelocity outVelocity time
    jumpDescriptor.delta maxLinearSpeed
  if r1.1 then (time, r1.2)
  else
    let time2 := jumpTime2 g maxVerticalVelocity (gravityGetComponent jumpDescriptor.delta)
    let r2 := checkAirborneTimeAndCalculateVelocity outVelocity time2
      jumpDescriptor.delta maxLinearSpeed
    if r2.1 then (time2, r2.2) else (-1, outVelocity)

/-- A jump descriptor dropping 10 units while moving 4 units sideways. -/
def demoJumpDescriptorDown : JumpDescriptor := ⟨⟨0, 0⟩, ⟨4, -10⟩, ⟨4, -10⟩⟩

/-- A jump descriptor rising 2 units straight up. -/
def demoJumpDescriptorUp : JumpDescriptor := ⟨⟨0, 0⟩, ⟨0, 2⟩, ⟨0, 2⟩⟩

lemma sqrt_49 : Real.sqrt (49 : ℝ) = 7 := by
  rw [show (49 : ℝ) = 7 ^ 2 by norm_num, Real.sqrt_sq (by norm_num)]

/-- C5 counterexample: with gravity (0,−2), maxVerticalVelocity 3, delta
(4,−10) and maxLinearSpeed 10, the roots are −2 and 5; the code accepts the
first root −2 without any sign check and returns it (writing the velocity),
even though the non-negative root 5 is also admissible; so the function
neither prefers the smaller non-negative root nor returns the −1 sentinel. -/
theorem claim_C5_counterexample :
    (calculateAirborneTimeAndVelocity ⟨0, 0⟩ ⟨0, -2⟩ 3 demoJumpDescriptorDown 10).1 = -2 ∧
    (calculateAirborneTimeAndVelocity ⟨0, 0⟩ ⟨0, -2⟩ 3 demoJumpDescriptorDown 10).1 < 0 ∧
    (5 : ℝ) ≥ 0 ∧ jumpTime2 (-2) 3 (-10) = 5 ∧
    (checkAirborneTimeAndCalculateVelocity ⟨0, 0⟩ 5 ⟨4, -10⟩ 10).1 = true := by
  have hs : jumpSqrtTerm (-2) 3 (-10) = 7 := by
    unfold jumpSqrtTerm
    rw [show (2 * (-2) * (-10) + 3 * 3 : ℝ) = 49 by norm_num, sqrt_49]
  have ht1 : jumpTime1 (-2) 3 (-10) = -2 := by
    unfold jumpTime1
    rw [hs]
    norm_num
  have ht2 : jumpTime2 (-2) 3 (-10) = 5 := by
    unfold jumpTime2
    rw [hs]
    norm_num
  have hcheck1 : checkAirborneTimeAndCalculateVelocity ⟨0, 0⟩ (-2) ⟨4, -10⟩ 10
      = (true, ⟨-2, 0⟩) := by
    unfold checkAirborneTimeAndCalculateVelocity gravitySetComponent
      gravityGetComponent Vector2.scale Vector2.sqrLen Vector2.copy
    rw [if_pos (by norm_num)]
    norm_num
  have hcheck5 : checkAirborneTimeAndCalculateVelocity ⟨0, 0⟩ 5 ⟨4, -10⟩ 10
      = (true, ⟨4 / 5, 0⟩) := by
    unfold checkAirborneTimeAndCalculateVelocity gravitySetComponent
      gravityGetComponent Vector2.scale Vector2.sqrLen Vector2.copy
    rw [if_pos (by norm_num)]
    norm_num
  have hmain : calculateAirborneTimeAndVelocity ⟨0, 0⟩ ⟨0, -2⟩ 3 demoJumpDescriptorDown 10
      = (-2, ⟨-2, 0⟩) := by
    unfold calculateAirborneTimeAndVelocity demoJumpDescriptorDown
    dsimp only
    rw [show gravityGetComponent ⟨0, -2⟩ = -2 from rfl,
      show gravityGetComponent ⟨4, -10⟩ = -10 from rfl, ht1, hcheck1]
    simp
  rw [hmain, ht2]
  refine ⟨rfl, by norm_num, by norm_num, rfl, ?_⟩
  rw [hcheck5]

/-- C5 (amended): with g the gravity component and dy the vertical delta, both
roots (−v0 ± sqrtTerm)/g satisfy v0·t + ½g·t² = dy (when g ≠ 0 and the
radicand is non-negative); the function tries the first root and then the
second with no sign check on the time, acceptance requiring planar speed
strictly below maxLinearSpeed; an accepted root is returned with the planar
velocity written into outVelocity, and only when both checks fail does it
return −1 with outVelocity unchanged. -/
theorem claim_C5_jump_airborne_time (outVelocity gravity : Vector2) (v0 : ℝ)
    (jd : JumpDescriptor) (maxLinearSpeed g dy : ℝ)
    (hgdef : g = gravityGetComponent gravity)
    (hdy : dy = gravityGetComponent jd.delta)
    (hg : g ≠ 0) (hrad : 0 ≤ 2 * g * dy + v0 * v0) :
    (v0 * jumpTime1 g v0 dy + g * jumpTime1 g v0 dy ^ 2 / 2 = dy) ∧
    (v0 * jumpTime2 g v0 dy + g * jumpTime2 g v0 dy ^ 2 / 2 = dy) ∧
    ((checkAirborneTimeAndCalculateVelocity outVelocity (jumpTime1 g v0 dy)
        jd.delta maxLinearSpeed).1 = true →
      calculateAirborneTimeAndVelocity outVelocity gravity v0 jd maxLinearSpeed
        = (jumpTime1 g v0 dy,
           (checkAirborneTimeAndCalculateVelocity outVelocity (jumpTime1 g v0 dy)
             jd.delta maxLinearSpeed).2)) ∧
    ((checkAirborneTimeAndCalculateVelocity outVelocity (jumpTime1 g v0 dy)
        jd.delta maxLinearSpeed).1 = false →
      (checkAirborneTimeAndCalculateVelocity outVelocity (jumpTime2 g v0 dy)
        jd.delta maxLinearSpeed).1 = true →
      calculateAirborneTimeAndVelocity outVelocity gravity v0 jd maxLinearSpeed
        = (jumpTime2 g v0 dy,
           (checkAirborneTimeAndCalculateVelocity outVelocity (jumpTime2 g v0 dy)
             jd.delta maxLinearSpeed).2)) ∧
    ((checkAirborneTimeAndCalculateVelocity outVelocity (jumpTime1 g v0 dy)
        jd.delta maxLinearSpeed).1 = false →
      (checkAirborneTimeAndCalculateVelocity outVelocity (jumpTime2 g v0 dy)
        jd.delta maxLinearSpeed).1 = false →
      calculateAirborneTimeAndVelocity outVelocity gravity v0 jd maxLinearSpeed
        = (-1, outVelocity)) := by
  subst hgdef hdy
  have hs2 : jumpSqrtTerm (gravityGetComponent gravity) v0 (gravityGetComponent jd.delta) ^ 2
      = 2 * gravityGetComponent gravity * gravityGetComponent jd.delta + v0 * v0 := by
    unfold jumpSqrtTerm
    exact Real.sq_sqrt hrad
  refine ⟨?_, ?_, ?_, ?_, ?_⟩
  · unfold jumpTime1
    field_simp
    nlinarith [hs2]
  · unfold jumpTime2
    field_simp
    nlinarith [hs2]
  · intro h1
    unfold calculateAirborneTimeAndVelocity
    dsimp only
    rw [h1]
    simp
  · intro h1 h2
    unfold calculateAirborneTimeAndVelocity
    dsimp only
    rw [h1, h2]
    simp
  · intro h1 h2
    unfold calculateAirborneTimeAndVelocity
    dsimp only
    rw [h1, h2]
    simp

/-- Witness for C5 (amended): gravity (0,−2), v0 = 3, delta (0,2),
maxLinearSpeed 10: the first root is 1, its planar check passes (planar speed
0), and the function returns time 1 with outVelocity (0,0); the root satisfies
3·1 + ½·(−2)·1² = 2. -/
theorem claim_C5_witness :
    calculateAirborneTimeAndVelocity ⟨0, 0⟩ ⟨0, -2⟩ 3 demoJumpDescriptorUp 10
      = (1, ⟨0, 0⟩) ∧ (3 : ℝ) * 1 + (-2) * 1 ^ 2 / 2 = 2 := by
  have hs : jumpSqrtTerm (-2) 3 2 = 1 := by
    unfold jumpSqrtTerm
    rw [show (2 * (-2) * 2 + 3 * 3 : ℝ) = 1 by norm_num, Real.sqrt_one]
  have ht1 : jumpTime1 (-2) 3 2 = 1 := by
    unfold jumpTime1
    rw [hs]
    norm_num
  have hcheck : checkAirborneTimeAndCalculateVelocity ⟨0, 0⟩ (jumpTime1 (-2) 3 2) ⟨0, 2⟩ 10
      = (true, ⟨0, 0⟩) := by
    rw [ht1]
    unfold checkAirborneTimeAndCalculateVelocity gravitySetComponent
      gravityGetComponent Vector2.scale Vector2.sqrLen Vector2.copy
    rw [if_pos (by norm_num)]
    norm_num
  have h := claim_C5_jump_airborne_time ⟨0, 0⟩ ⟨0, -2⟩ 3 demoJumpDescriptorUp 10
    (-2) 2 rfl rfl (by norm_num) (by norm_num)
  have hq := h.1
  rw [ht1] at hq
  refine ⟨?_, by rw [show ((3 : ℝ) * 1 + (-2) * 1 ^ 2 / 2) = 3 * 1 + (-2) * 1 ^ 2 / 2 from rfl]; norm_num⟩
  have hr := h.2.2.1 (by rw [show demoJumpDescriptorUp.delta = ⟨0, 2⟩ from rfl, hcheck])
  rw [show demoJumpDescriptorUp.delta = ⟨0, 2⟩ from rfl] at hr
  rw [hr, hcheck, ht1]

/-- A steerable agent as seen by the group behaviors: position, linear
velocity, bounding radius, the scratch tagged flag, and a numeric identity
modelling JavaScript reference identity. -/
structure Agent where
  id : ℕ
  position : Vector2
  linearVelocity : Vector2
  boundingRadius : ℝ
  tagged : Bool

/-- The mutable fields of CollisionAvoidance during one evaluation
(unnamed part_015); shortestTime = none models the Infinity initialization
and firstNeighbor = none the null initialization. -/
structure CAState where
  shortestTime : Option ℝ
  firstNeighbor : Option Agent
  firstMinSeparation : ℝ
  firstDistance : ℝ
  firstRelativePosition : Vector2
  firstRelativeVelocity : Vector2

/-- timeToCollision ≥ shortestTime, where shortestTime = none stands for the
Infinity initialization, which no finite time reaches. -/
def geShortest (t : ℝ) : Option ℝ → Prop
  | none => False
  | some s => t ≥ s

instance (t : ℝ) (o : Option ℝ) : Decidable (geShortest t o) :=
  match o with
  | none => isFalse (fun h => h)
  | some s => inferInstanceAs (Decidable (t ≥ s))

/-- CollisionAvoidance.reportNeighbor: whether the neighbor was recorded as
the most imminent collision, together with the updated state. -/
def reportNeighbor (owner : Agent) (st : CAState) (neighbor : Agent) :
    Bool × CAState :=
  let relativePosition := neighbor.position.sub owner.position
  let relativeVelocity := neighbor.linearVelocity.sub owner.linearVelocity
  let relativeSpeed2 := relativeVelocity.sqrLen
  if relativeSpeed2 = 0 then (false, st)
  else
    let timeToCollision := -(relativePosition.dot relativeVelocity) / relativeSpeed2
    if timeToCollision ≤ 0 ∨ geShortest timeToCollision st.shortestTime then (false, st)
    else
      let distance := relativePosition.len
      let minSeparation := distance - Real.sqrt relativeSpeed2 * timeToCollision
      if owner.boundingRadius + neighbor.boundingRadius < minSeparation then (false, st)
      else
        (true,
          { shortestTime := some timeToCollision
            firstNeighbor := some neighbor
            firstMinSeparation := minSeparation
            firstDistance := distance
            firstRelativePosition := relativePosition
            firstRelativeVelocity := relativeVelocity })

/-- The neighbor scan performed through proximity.findNeighbors inside
CollisionAvoidance.calculateRealSteering: every reported candidate goes
through reportNeighbor in order; returns the final state and the count of
accepted neighbors. -/
def caFindNeighbors (owner : Agent) (st : CAState) :
    List Agent → CAState × ℕ
  | [] => (st, 0)
  | n :: rest =>
    let r := reportNeighbor owner st n
    let tail := caFindNeighbors owner r.2 rest
    (tail.1, (if r.1 then 1 else 0) + tail.2)

/-- CollisionAvoidance.calculateRealSteering: reset the state, scan the
neighbors, and when none qualifies return exactly zero steering; otherwise
steer away from the current or projected relative position of the most
imminent neighbor, normalized and scaled by −maxLinearAcceleration (at that
point shortestTime is finite, so the getD default is never used). -/
def caCalculateRealSteering (owner : Agent) (neighbors : List Agent)
    (maxLinearAcceleration : ℝ) : SteeringAcceleration :=
  let r := caFindNeighbors owner ⟨none, none, 0, 0, Vector2.zero, Vector2.zero⟩ neighbors
  let st := r.1
  let neighborCount := r.2
  match st.firstNeighbor with
  | none => SteeringAcceleration.zero
  | some first =>
    if neighborCount = 0 then SteeringAcceleration.zero
    else
      let relativePosition :=
        if st.firstMinSeparation ≤ 0 ∨
            st.firstDistance < owner.boundingRadius + first.boundingRadius
        then first.position.sub owner.position
        else st.firstRelativePosition.scaleAndAdd st.firstRelativeVelocity
          (st.shortestTime.getD 0)
      ⟨(relativePosition.nor).scale (-maxLinearAcceleration), 0⟩

/-- C6: CollisionAvoidance rejects, leaving its state untouched, any neighbor
with zero relative velocity (no 0/0 time-to-collision is evaluated), any
neighbor whose time to closest approach is negative, any neighbor that is not
the most imminent so far, and any neighbor whose minimum separation exceeds
the summed bounding radii; and when no neighbor qualifies the behavior
returns exactly zero acceleration. -/
theorem claim_C6_collision_rejections :
    (∀ (owner : Agent) (st : CAState) (neighbor : Agent),
      neighbor.linearVelocity.sub owner.linearVelocity = Vector2.zero →
      reportNeighbor owner st neighbor = (false, st)) ∧
    (∀ (owner : Agent) (st : CAState) (neighbor : Agent),
      -((neighbor.position.sub owner.position).dot
          (neighbor.linearVelocity.sub owner.linearVelocity))
        / (neighbor.linearVelocity.sub owner.linearVelocity).sqrLen < 0 →
      reportNeighbor owner st neighbor = (false, st)) ∧
    (∀ (owner : Agent) (st : CAState) (neighbor : Agent),
      geShortest (-((neighbor.position.sub owner.position).dot
          (neighbor.linearVelocity.sub owner.linearVelocity))
        / (neighbor.linearVelocity.sub owner.linearVelocity).sqrLen)
        st.shortestTime →
      reportNeighbor owner st neighbor = (false, st)) ∧
    (∀ (owner : Agent) (st : CAState) (neighbor : Agent),
      (neighbor.position.sub owner.position).len
          - Real.sqrt (neighbor.linearVelocity.sub owner.linearVelocity).sqrLen
            * (-((neighbor.position.sub owner.position).dot
                (neighbor.linearVelocity.sub owner.linearVelocity))
              / (neighbor.linearVelocity.sub owner.linearVelocity).sqrLen)
        > owner.boundingRadius + neighbor.boundingRadius →
      reportNeighbor owner st neighbor = (false, st)) ∧
    (∀ (owner : Agent) (neighbors : List Agent) (maxLinearAcceleration : ℝ),
      (caFindNeighbors owner ⟨none, none, 0, 0, Vector2.zero, Vector2.zero⟩
        neighbors).2 = 0 →
      caCalculateRealSteering owner neighbors maxLinearAcceleration
        = SteeringAcceleration.zero) := by
  refine ⟨?_, ?_, ?_, ?_, ?_⟩
  · intro owner st neighbor hrel
    unfold reportNeighbor
    rw [hrel]
    rw [if_pos (by unfold Vector2.sqrLen Vector2.zero; norm_num)]
  · intro owner st neighbor ht
    unfold reportNeighbor
    dsimp only
    by_cases h0 : (neighbor.linearVelocity.sub owner.linearVelocity).sqrLen = 0
    · rw [if_pos h0]
    · rw [if_neg h0, if_pos (Or.inl (le_of_lt ht))]
  · intro owner st neighbor hge
    unfold reportNeighbor
    dsimp only
    by_cases h0 : (neighbor.linearVelocity.sub owner.linearVelocity).sqrLen = 0
    · rw [if_pos h0]
    · rw [if_neg h0, if_pos (Or.inr hge)]
  · intro owner st neighbor hsep
    unfold reportNeighbor
    dsimp only
    by_cases h0 : (neighbor.linearVelocity.sub owner.linearVelocity).sqrLen = 0
    · rw [if_pos h0]
    · rw [if_neg h0]
      by_cases h1 : -((neighbor.position.sub owner.position).dot
            (neighbor.linearVelocity.sub owner.linearVelocity))
          / (neighbor.linearVelocity.sub owner.linearVelocity).sqrLen ≤ 0 ∨
          geShortest (-((neighbor.position.sub owner.position).dot
            (neighbor.linearVelocity.sub owner.linearVelocity))
          / (neighbor.linearVelocity.sub owner.linearVelocity).sqrLen) st.shortestTime
      · rw [if_pos h1]
      · rw [if_neg h1, if_pos hsep]
  · intro owner neighbors maxLinearAcceleration hcount
    unfold caCalculateRealSteering
    dsimp only
    rcases hfn : (caFindNeighbors owner ⟨none, none, 0, 0, Vector2.zero, Vector2.zero⟩
        neighbors).1.firstNeighbor with _ | first
    · rfl
    · simp [hcount]

/-- A demo owner for the CollisionAvoidance witness. -/
def demoCAOwner : Agent := ⟨0, ⟨0, 0⟩, ⟨1, 0⟩, 1, false⟩

/-- A demo neighbor moving with the same velocity as the owner. -/
def demoCANeighbor : Agent := ⟨1, ⟨5, 0⟩, ⟨1, 0⟩, 1, false⟩

/-- Witness for C6: the neighbor shares the owner's velocity, so it is
rejected with the state untouched, no neighbor qualifies, and the behavior
returns exactly zero acceleration. -/
theorem claim_C6_witness :
    reportNeighbor demoCAOwner ⟨none, none, 0, 0, Vector2.zero, Vector2.zero⟩
        demoCANeighbor
      = (false, ⟨none, none, 0, 0, Vector2.zero, Vector2.zero⟩) ∧
    caCalculateRealSteering demoCAOwner [demoCANeighbor] 7
      = SteeringAcceleration.zero := by
  have hrel : demoCANeighbor.linearVelocity.sub demoCAOwner.linearVelocity
      = Vector2.zero := by
    unfold demoCANeighbor demoCAOwner Vector2.sub Vector2.zero
    norm_num
  have hrep := claim_C6_collision_rejections.1 demoCAOwner
    ⟨none, none, 0, 0, Vector2.zero, Vector2.zero⟩ demoCANeighbor hrel
  refine ⟨hrep, ?_⟩
  refine claim_C6_collision_rejections.2.2.2.2 demoCAOwner [demoCANeighbor] 7 ?_
  unfold caFindNeighbors
  rw [hrep]
  simp [caFindNeighbors]

/-- The fresh-tick scan loop of RadiusProximity.findNeighbors (unnamed
part_017): each agent other than the owner whose squared distance from the
owner's position is below (radius + candidate.boundingRadius)² is reported to
the callback; accepted agents are tagged and counted, every other scanned
agent is untagged.  Returns the accepted count, the list of agents reported
to the callback, and the updated agent list. -/
def rpFreshScan (owner : Agent) (radius : ℝ) (callback : Agent → Bool) :
    List Agent → ℕ × List Agent × List Agent
  | [] => (0, [], [])
  | a :: rest =>
    let tail := rpFreshScan owner radius callback rest
    if a.id ≠ owner.id then
      let squareDistance := owner.position.dst2 a.position
      let range := radius + a.boundingRadius
      if squareDistance < range * range then
        if callback a then
          (tail.1 + 1, a :: tail.2.1, { a with tagged := true } :: tail.2.2)
        else (tail.1, a :: tail.2.1, { a with tagged := false } :: tail.2.2)
      else (tail.1, tail.2.1, { a with tagged := false } :: tail.2.2)
    else (tail.1, tail.2.1, { a with tagged := false } :: tail.2.2)

/-- The cached-tick scan of RadiusProximity.findNeighbors: only agents other
than the owner that are tagged are reported; tags are not changed. -/
def rpCachedScan (owner : Agent) (callback : Agent → Bool) : List Agent → ℕ
  | [] => 0
  | a :: rest =>
    (if a.id ≠ owner.id ∧ a.tagged then (if callback a then 1 else 0) else 0)
      + rpCachedScan owner callback rest

/-- RadiusProximity.findNeighbors: compares the stored lastTime against the
injected tick id; a fresh tick rescans and retags, otherwise the tags are
replayed.  Returns the accepted count, the updated agents, and the new
lastTime. -/
def rpFindNeighbors (lastTime tick : ℕ) (owner : Agent) (radius : ℝ)
    (agents : List Agent) (callback : Agent → Bool) : ℕ × List Agent × ℕ :=
  if lastTime ≠ tick then
    let r := rpFreshScan owner radius callback agents
    (r.1, r.2.2, tick)
  else (rpCachedScan owner callback agents, agents, lastTime)

/-- The within-range test of RadiusProximity as a Boolean predicate. -/
def rpWithin (owner : Agent) (radius : ℝ) (a : Agent) : Bool :=
  decide (a.id ≠ owner.id ∧
    owner.position.dst2 a.position
      < (radius + a.boundingRadius) * (radius + a.boundingRadius))

lemma rpFreshScan_reported (owner : Agent) (radius : ℝ) (callback : Agent → Bool) :
    ∀ agents : List Agent,
      (rpFreshScan owner radius callback agents).2.1
        = agents.filter (rpWithin owner radius) := by
  intro agents
  induction agents with
  | nil => rfl
  | cons a rest ih =>
    by_cases hid : a.id ≠ owner.id
    · by_cases hd : owner.position.dst2 a.position
          < (radius + a.boundingRadius) * (radius + a.boundingRadius)
      · by_cases hc : callback a = true
        · simp [rpFreshScan, hid, hd, hc, ih, List.filter_cons, rpWithin]
        · simp [rpFreshScan, hid, hd, hc, ih, List.filter_cons, rpWithin]
      · simp [rpFreshScan, hid, hd, ih, List.filter_cons, rpWithin]
    · simp [rpFreshScan, hid, ih, List.filter_cons, rpWithin]

lemma rpFreshScan_count (owner : Agent) (radius : ℝ) (callback : Agent → Bool) :
    ∀ agents : List Agent,
      (rpFreshScan owner radius callback agents).1
        = ((rpFreshScan owner radius callback agents).2.1.filter callback).length := by
  intro agents
  induction agents with
  | nil => rfl
  | cons a rest ih =>
    by_cases hid : a.id ≠ owner.id
    · by_cases hd : owner.position.dst2 a.position
          < (radius + a.boundingRadius) * (radius + a.boundingRadius)
      · by_cases hc : callback a = true
        · simp [rpFreshScan, hid, hd, hc, ih, List.filter_cons]
        · simp [rpFreshScan, hid, hd, hc, ih, List.filter_cons]
      · simp [rpFreshScan, hid, hd, ih]
    · simp [rpFreshScan, hid, ih]

/-- The three scenario agents at (0,0), (3,0) and (10,0), zero bounding
radii. -/
def demoProxAgentA : Agent := ⟨0, ⟨0, 0⟩, ⟨0, 0⟩, 0, false⟩

/-- The scenario agent at (3,0). -/
def demoProxAgentB : Agent := ⟨1, ⟨3, 0⟩, ⟨0, 0⟩, 0, false⟩

/-- The scenario agent at (10,0). -/
def demoProxAgentC : Agent := ⟨2, ⟨10, 0⟩, ⟨0, 0⟩, 0, false⟩

/-- C7: on a fresh tick, findNeighbors runs the rescan; the rescan reports to
the callback exactly the candidates other than the owner whose squared
distance is below (radius + boundingRadius)² (in particular never the owner),
and returns the count of callback-accepted reported agents; for agents at
(0,0), (3,0), (10,0) with zero bounding radii, owner the (0,0) agent and
radius 5, with an always-accepting callback exactly the (3,0) agent is
reported and the count is 1. -/
theorem claim_C7_radius_proximity :
    (∀ (lastTime tick : ℕ) (owner : Agent) (radius : ℝ) (agents : List Agent)
        (callback : Agent → Bool), lastTime ≠ tick →
      (rpFindNeighbors lastTime tick owner radius agents callback).1
        = (rpFreshScan owner radius callback agents).1) ∧
    (∀ (owner : Agent) (radius : ℝ) (callback : Agent → Bool) (agents : List Agent),
      (rpFreshScan owner radius callback agents).2.1
        = agents.filter (rpWithin owner radius)) ∧
    (∀ (owner : Agent) (radius : ℝ) (callback : Agent → Bool) (agents : List Agent),
      ∀ a ∈ (rpFreshScan owner radius callback agents).2.1, a.id ≠ owner.id) ∧
    (∀ (owner : Agent) (radius : ℝ) (callback : Agent → Bool) (agents : List Agent),
      (rpFreshScan owner radius callback agents).1
        = ((rpFreshScan owner radius callback agents).2.1.filter callback).length) ∧
    ((rpFreshScan demoProxAgentA 5 (fun _ => true)
        [demoProxAgentA, demoProxAgentB, demoProxAgentC]).2.1 = [demoProxAgentB] ∧
      (rpFreshScan demoProxAgentA 5 (fun _ => true)
        [demoProxAgentA, demoProxAgentB, demoProxAgentC]).1 = 1) := by
  refine ⟨?_, rpFreshScan_reported, ?_, rpFreshScan_count, ?_, ?_⟩
  · intro lastTime tick owner radius agents callback h
    unfold rpFindNeighbors
    rw [if_pos h]
  · intro owner radius callback agents a ha
    rw [rpFreshScan_reported] at ha
    have := List.of_mem_filter ha
    rw [rpWithin] at this
    exact (of_decide_eq_true this).1
  · have hB : rpWithin demoProxAgentA 5 demoProxAgentB = true := by
      unfold rpWithin demoProxAgentA demoProxAgentB Vector2.dst2
      norm_num
    have hA : rpWithin demoProxAgentA 5 demoProxAgentA = false := by
      unfold rpWithin demoProxAgentA
      norm_num
    have hC : rpWithin demoProxAgentA 5 demoProxAgentC = false := by
      unfold rpWithin demoProxAgentA demoProxAgentC Vector2.dst2
      norm_num
    rw [rpFreshScan_reported]
    simp [List.filter_cons, hA, hB, hC]
  · have hB : rpWithin demoProxAgentA 5 demoProxAgentB = true := by
      unfold rpWithin demoProxAgentA demoProxAgentB Vector2.dst2
      norm_num
    have hA : rpWithin demoProxAgentA 5 demoProxAgentA = false := by
      unfold rpWithin demoProxAgentA
      norm_num
    have hC : rpWithin demoProxAgentA 5 demoProxAgentC = false := by
      unfold rpWithin demoProxAgentA demoProxAgentC Vector2.dst2
      norm_num
    rw [rpFreshScan_count, rpFreshScan_reported]
    simp [List.filter_cons, hA, hB, hC]

/-- Witness for C7: a fresh tick (lastTime 0, tick 1) on the scenario agents
returns count 1. -/
theorem claim_C7_witness :
    (rpFindNeighbors 0 1 demoProxAgentA 5
      [demoProxAgentA, demoProxAgentB, demoProxAgentC] (fun _ => true)).1 = 1 := by
  rw [claim_C7_radius_proximity.1 0 1 demoProxAgentA 5
    [demoProxAgentA, demoProxAgentB, demoProxAgentC] (fun _ => true) (by norm_num)]
  exact claim_C7_radius_proximity.2.2.2.2.2

/-- A Segment of a LinePath (src/steer/utils/paths/LinePath.ts): begin and
end points, length, and cumulative length from the path start (end is a Lean
keyword, hence the trailing underscore). -/
structure Segment where
  begin_ : Vector2
  end_ : Vector2
  length : ℝ
  cumulativeLength : ℝ

/-- The segment-building loop of LinePath.createPath: walks consecutive
waypoints, wrapping back to the first waypoint when the path is closed,
accumulating each segment's length into the path length. -/
def buildSegments (first : Vector2) (isOpen : Bool) (pathLength : ℝ)
    (prev : Vector2) : List Vector2 → List Segment × ℝ
  | [] =>
    if isOpen then ([], pathLength)
    else
      let len := prev.dst first
      ([⟨prev, first, len, pathLength + len⟩], pathLength + len)
  | curr :: rest =>
    let len := prev.dst curr
    let tail := buildSegments first isOpen (pathLength + len) curr rest
    (⟨prev, curr, len, pathLength + len⟩ :: tail.1, tail.2)

/-- LinePath.createPath: throws (error) on a null waypoint list or one with
fewer than two waypoints, otherwise builds the segments and the total path
length.  The null TypeScript argument is modelled by none; the length < 2
guard is expressed by the patterns. -/
def createPath (isOpen : Bool) (waypoints : Option (List Vector2)) :
    Except String (List Segment × ℝ) :=
  match waypoints with
  | none => .error "waypoints cannot be null and must contain at least two (2) waypoints"
  | some [] => .error "waypoints cannot be null and must contain at least two (2) waypoints"
  | some [_] => .error "waypoints cannot be null and must contain at least two (2) waypoints"
  | some (w0 :: w1 :: rest) => .ok (buildSegments w0 isOpen 0 w0 (w1 :: rest))

/-- The persistent state built by the LinePath constructor: the segments, the
open flag, the path length, and the scratch vectors cloned from the first
waypoint. -/
structure LinePath where
  segments : List Segment
  isOpen : Bool
  pathLength : ℝ
  nearestPointOnCurrentSegment : Vector2
  nearestPointOnPath : Vector2
  tmpB : Vector2
  tmpC : Vector2

/-- The LinePath constructor: runs createPath (propagating its error), then
initializes the scratch vectors from waypoints[0].  The final catch-all arm is
unreachable because createPath only succeeds on two or more waypoints. -/
def linePathNew (waypoints : Option (List Vector2)) (isOpen : Bool) :
    Except String LinePath :=
  match waypoints, createPath isOpen waypoints with
  | _, .error e => .error e
  | some (w0 :: _), .ok sp => .ok ⟨sp.1, isOpen, sp.2, w0.clone, w0.clone, w0.clone, w0.clone⟩
  | _, .ok _ => .error "waypoints cannot be null and must contain at least two (2) waypoints"

/-- C8: constructing a LinePath from a null waypoint list or from fewer than
two waypoints always yields the fail-fast error, and construction from two or
more waypoints never does. -/
theorem claim_C8_linepath_construction :
    (∀ o : Bool, linePathNew none o
      = .error "waypoints cannot be null and must contain at least two (2) waypoints") ∧
    (∀ (ws : List Vector2) (o : Bool), ws.length < 2 →
      linePathNew (some ws) o
        = .error "waypoints cannot be null and must contain at least two (2) waypoints") ∧
    (∀ (ws : List Vector2) (o : Bool), 2 ≤ ws.length →
      ∃ p : LinePath, linePathNew (some ws) o = .ok p) := by
  refine ⟨?_, ?_, ?_⟩
  · intro o
    rfl
  · intro ws o hlen
    match ws with
    | [] => rfl
    | [w] => rfl
    | w0 :: w1 :: rest => simp only [List.length_cons] at hlen; omega
  · intro ws o hlen
    match ws with
    | [] => simp at hlen
    | [w] => simp at hlen
    | w0 :: w1 :: rest =>
      exact ⟨_, rfl⟩

/-- Witness for C8: one waypoint errors, two waypoints construct. -/
theorem claim_C8_witness :
    linePathNew (some [⟨0, 0⟩]) true
      = .error "waypoints cannot be null and must contain at least two (2) waypoints" ∧
    ∃ p : LinePath, linePathNew (some [⟨0, 0⟩, ⟨1, 0⟩]) false = .ok p := by
  constructor
  · exact claim_C8_linepath_construction.2.1 [⟨0, 0⟩] true (by norm_num)
  · exact claim_C8_linepath_construction.2.2 [⟨0, 0⟩, ⟨1, 0⟩] false (by norm_num)
